/-
  Verification of the style-state and history engine of the
  cartographic-style-editor repository (Map Remix).

  The development shallowly embeds the `AppState` store
  (src/state/AppState.js), the theme table (src/styles/themes.js),
  the default style (src/styles/defaultStyle.js), the import
  validation (src/ui/ExportControls.js) and the theme dispatch
  (src/ui/ThemeSelector.js) as pure Lean functions over explicit
  state values, and proves or refutes the specification's claims
  about undo/redo, history bounds, theme application, visibility
  consistency, import validation and copy isolation.
-/
import Mathlib

namespace MapRemix

/-! ## JSON-like values

JavaScript values appearing in paint/layout mappings: strings, numbers,
booleans, and arrays (e.g. `line-dasharray: [3, 3]`).  Numbers are
modelled as rationals, which is exact for every literal in the
repository's data tables. -/

inductive JValue where
  | str (s : String)
  | num (q : ℚ)
  | bool (b : Bool)
  | arr (xs : List JValue)

mutual

def JValue.decEq : (a b : JValue) → Decidable (a = b)
  | .str a, .str b =>
      if h : a = b then .isTrue (by rw [h])
      else .isFalse (by intro hc; injection hc; exact h (by assumption))
  | .num a, .num b =>
      if h : a = b then .isTrue (by rw [h])
      else .isFalse (by intro hc; injection hc; exact h (by assumption))
  | .bool a, .bool b =>
      if h : a = b then .isTrue (by rw [h])
      else .isFalse (by intro hc; injection hc; exact h (by assumption))
  | .arr a, .arr b =>
      match JValue.decEqList a b with
      | .isTrue h => .isTrue (by rw [h])
      | .isFalse h => .isFalse (by intro hc; injection hc; exact h (by assumption))
  | .str _, .num _ => .isFalse (fun h => JValue.noConfusion h)
  | .str _, .bool _ => .isFalse (fun h => JValue.noConfusion h)
  | .str _, .arr _ => .isFalse (fun h => JValue.noConfusion h)
  | .num _, .str _ => .isFalse (fun h => JValue.noConfusion h)
  | .num _, .bool _ => .isFalse (fun h => JValue.noConfusion h)
  | .num _, .arr _ => .isFalse (fun h => JValue.noConfusion h)
  | .bool _, .str _ => .isFalse (fun h => JValue.noConfusion h)
  | .bool _, .num _ => .isFalse (fun h => JValue.noConfusion h)
  | .bool _, .arr _ => .isFalse (fun h => JValue.noConfusion h)
  | .arr _, .str _ => .isFalse (fun h => JValue.noConfusion h)
  | .arr _, .num _ => .isFalse (fun h => JValue.noConfusion h)
  | .arr _, .bool _ => .isFalse (fun h => JValue.noConfusion h)

def JValue.decEqList : (a b : List JValue) → Decidable (a = b)
  | [], [] => .isTrue rfl
  | [], _ :: _ => .isFalse (fun h => List.noConfusion h)
  | _ :: _, [] => .isFalse (fun h => List.noConfusion h)
  | x :: xs, y :: ys =>
      match JValue.decEq x y, JValue.decEqList xs ys with
      | .isTrue h1, .isTrue h2 => .isTrue (by rw [h1, h2])
      | .isFalse h1, _ => .isFalse (by intro hc; injection hc; exact h1 (by assumption))
      | _, .isFalse h2 => .isFalse (by intro hc; injection hc; exact h2 (by assumption))

end

instance : DecidableEq JValue := JValue.decEq

/-! ## Association lists as JS objects

JS objects are key-ordered maps.  `objGet` is property lookup,
`objSet` is `o[k] = v` (overwriting keeps the key's position,
a fresh key is appended), and `objMerge a b` is the spread
`{...a, ...b}` (keys of `b` win; new keys of `b` are appended in
order). -/

def objGet (o : List (String × α)) (k : String) : Option α :=
  (o.find? (fun p => p.1 = k)).map Prod.snd

def objSet (o : List (String × α)) (k : String) (v : α) : List (String × α) :=
  if o.any (fun p => p.1 = k) then
    o.map (fun p => if p.1 = k then (k, v) else p)
  else
    o ++ [(k, v)]

def objMerge (a b : List (String × α)) : List (String × α) :=
  b.foldl (fun acc p => objSet acc p.1 p.2) a

/-! ## Style documents

`Layer` and `StyleDoc` mirror the MapLibre style JSON shape used by
the repository (src/styles/defaultStyle.js).  Fields that JS leaves
`undefined` are `Option`s.  `metadata` is modelled only to the depth
the code inspects it (`metadata?.['map-remix']?.layerVisibility` and
`...activeTheme` in ExportControls.importStyleJSON). -/

structure Layer where
  id : String
  type : String
  source : Option String := none
  sourceLayer : Option String := none
  layout : Option (List (String × JValue)) := none
  paint : Option (List (String × JValue)) := none
  deriving DecidableEq

structure Source where
  type : String
  url : Option String := none
  deriving DecidableEq

structure MapRemixMeta where
  layerVisibility : Option (List (String × Bool)) := none
  activeTheme : Option String := none
  deriving DecidableEq

structure Metadata where
  mapRemix : Option MapRemixMeta := none
  other : List (String × JValue) := []
  deriving DecidableEq

structure StyleDoc where
  version : Option Nat := none
  name : Option String := none
  metadata : Option Metadata := none
  sources : Option (List (String × Source)) := none
  layers : Option (List Layer) := none
  center : Option (List ℚ) := none
  zoom : Option ℚ := none
  bearing : Option ℚ := none
  pitch : Option ℚ := none
  deriving DecidableEq

instance : Inhabited StyleDoc := ⟨{}⟩

/-- The layer list of a document.  Every code path in the repository
assumes `style.layers` is present (JS would throw otherwise); reachable
documents always carry a layer list. -/
def StyleDoc.layerList (d : StyleDoc) : List Layer :=
  d.layers.getD []

/-! ## Data tables

`defaultStyle` and `layerConfig` are transcribed from
src/styles/defaultStyle.js; `themes` from src/styles/themes.js. -/

def defaultSources : List (String × Source) :=
  [ ("colorado_highways",
     ⟨"vector", some "pmtiles://assets/tiles/colorado_highways.pmtiles"⟩)
  , ("colorado_rivers",
     ⟨"vector", some "pmtiles://assets/tiles/colorado_rivers.pmtiles"⟩)
  , ("colorado_rails",
     ⟨"vector", some "pmtiles://assets/tiles/colorado_rails.pmtiles"⟩)
  , ("osm_points",
     ⟨"vector", some "pmtiles://assets/tiles/osm_points.pmtiles"⟩) ]

def backgroundLayer : Layer :=
  { id := "background"
    type := "background"
    paint := some [("background-color", .str "#f8f9fa")] }

def riversLayer : Layer :=
  { id := "colorado_rivers"
    type := "line"
    source := some "colorado_rivers"
    sourceLayer := some "rivers"
    layout := some [("line-join", .str "round"), ("line-cap", .str "round"),
                    ("visibility", .str "visible")]
    paint := some [("line-color", .str "#2196F3"), ("line-width", .num 2),
                   ("line-opacity", .num (Rat.mk' 4 5))] }

def railsLayer : Layer :=
  { id := "colorado_rails"
    type := "line"
    source := some "colorado_rails"
    sourceLayer := some "rails"
    layout := some [("line-join", .str "round"), ("line-cap", .str "round"),
                    ("visibility", .str "visible")]
    paint := some [("line-color", .str "#795548"), ("line-width", .num 2),
                   ("line-opacity", .num (Rat.mk' 7 10)),
                   ("line-dasharray", .arr [.num 3, .num 3])] }

def highwaysLayer : Layer :=
  { id := "colorado_highways"
    type := "line"
    source := some "colorado_highways"
    sourceLayer := some "highways"
    layout := some [("line-join", .str "round"), ("line-cap", .str "round"),
                    ("visibility", .str "visible")]
    paint := some [("line-color", .str "#FF5722"), ("line-width", .num 3),
                   ("line-opacity", .num (Rat.mk' 9 10))] }

def pointsLayer : Layer :=
  { id := "osm_points"
    type := "circle"
    source := some "osm_points"
    sourceLayer := some "points"
    layout := some [("visibility", .str "visible")]
    paint := some [("circle-color", .str "#4CAF50"), ("circle-radius", .num 4),
                   ("circle-opacity", .num (Rat.mk' 4 5)),
                   ("circle-stroke-color", .str "#ffffff"),
                   ("circle-stroke-width", .num 1)] }

def defaultStyle : StyleDoc :=
  { version := some 8
    name := some "Map Remix Default"
    metadata := some { other := [("mapbox:autocomposite", .bool false),
                                 ("mapbox:type", .str "template")] }
    sources := some defaultSources
    layers := some [backgroundLayer, riversLayer, railsLayer,
                    highwaysLayer, pointsLayer]
    center := some [Rat.mk' (-1057821) 10000, Rat.mk' 397391 10000]
    zoom := some 7
    bearing := some 0
    pitch := some 0 }

structure LayerConfigEntry where
  name : String
  type : String
  defaultVisible : Bool
  styleProperties : List String
  deriving DecidableEq

def layerConfig : List (String × LayerConfigEntry) :=
  [ ("colorado_highways",
     ⟨"Colorado Highways", "line", true,
      ["line-color", "line-width", "line-opacity"]⟩)
  , ("colorado_rivers",
     ⟨"Colorado Rivers", "line", true,
      ["line-color", "line-width", "line-opacity"]⟩)
  , ("colorado_rails",
     ⟨"Colorado Rails", "line", true,
      ["line-color", "line-width", "line-opacity"]⟩)
  , ("osm_points",
     ⟨"Points of Interest", "circle", true,
      ["circle-color", "circle-radius", "circle-opacity"]⟩) ]

/-! ## Theme bundles (src/styles/themes.js) -/

structure ThemeLayerChange where
  paint : Option (List (String × JValue)) := none
  deriving DecidableEq

structure Theme where
  name : String
  description : String
  background : Option (List (String × JValue)) := none
  layers : List (String × ThemeLayerChange) := []
  deriving DecidableEq

def defaultTheme : Theme :=
  { name := "Default"
    description := "Clean, modern cartographic style"
    background := some [("background-color", .str "#f8f9fa")]
    layers :=
      [ ("co_roads", ⟨some [("line-color", .str "#FF5722"),
          ("line-width", .num (Rat.mk' 5 2)), ("line-opacity", .num (Rat.mk' 9 10))]⟩)
      , ("co_railways", ⟨some [("line-color", .str "#795548"),
          ("line-width", .num 2), ("line-opacity", .num (Rat.mk' 4 5))]⟩)
      , ("co_power_lines", ⟨some [("line-color", .str "#9C27B0"),
          ("line-width", .num (Rat.mk' 3 2)), ("line-opacity", .num (Rat.mk' 7 10))]⟩) ] }

def retroTheme : Theme :=
  { name := "Retro"
    description := "Vintage-inspired earth tones"
    background := some [("background-color", .str "#f4f1e8")]
    layers :=
      [ ("co_roads", ⟨some [("line-color", .str "#8B4513"),
          ("line-width", .num 3), ("line-opacity", .num (Rat.mk' 17 20))]⟩)
      , ("co_railways", ⟨some [("line-color", .str "#2F4F4F"),
          ("line-width", .num 2), ("line-opacity", .num (Rat.mk' 4 5))]⟩)
      , ("co_power_lines", ⟨some [("line-color", .str "#DAA520"),
          ("line-width", .num (Rat.mk' 3 2)), ("line-opacity", .num (Rat.mk' 3 4))]⟩) ] }

def nightTheme : Theme :=
  { name := "Night"
    description := "Dark theme with neon accents"
    background := some [("background-color", .str "#1a1a1a")]
    layers :=
      [ ("co_roads", ⟨some [("line-color", .str "#00FFFF"),
          ("line-width", .num 3), ("line-opacity", .num (Rat.mk' 9 10))]⟩)
      , ("co_railways", ⟨some [("line-color", .str "#FF69B4"),
          ("line-width", .num 2), ("line-opacity", .num (Rat.mk' 4 5))]⟩)
      , ("co_power_lines", ⟨some [("line-color", .str "#FFFF00"),
          ("line-width", .num (Rat.mk' 3 2)), ("line-opacity", .num (Rat.mk' 9 10))]⟩) ] }

def terrainTheme : Theme :=
  { name := "Terrain"
    description := "Natural colors inspired by topographic maps"
    background := some [("background-color", .str "#f0f8e8")]
    layers :=
      [ ("co_roads", ⟨some [("line-color", .str "#8B0000"),
          ("line-width", .num 3), ("line-opacity", .num (Rat.mk' 4 5))]⟩)
      , ("co_railways", ⟨some [("line-color", .str "#8B4513"),
          ("line-width", .num 2), ("line-opacity", .num (Rat.mk' 7 10))]⟩)
      , ("co_power_lines", ⟨some [("line-color", .str "#228B22"),
          ("line-width", .num (Rat.mk' 3 2)), ("line-opacity", .num (Rat.mk' 4 5))]⟩) ] }

def minimalTheme : Theme :=
  { name := "Minimal"
    description := "Clean, high-contrast design"
    background := some [("background-color", .str "#ffffff")]
    layers :=
      [ ("co_roads", ⟨some [("line-color", .str "#000000"),
          ("line-width", .num 2), ("line-opacity", .num 1)]⟩)
      , ("co_railways", ⟨some [("line-color", .str "#333333"),
          ("line-width", .num (Rat.mk' 3 2)), ("line-opacity", .num (Rat.mk' 4 5))]⟩)
      , ("co_power_lines", ⟨some [("line-color", .str "#666666"),
          ("line-width", .num 1), ("line-opacity", .num (Rat.mk' 3 5))]⟩) ] }

def themes : List (String × Theme) :=
  [ ("default", defaultTheme), ("retro", retroTheme), ("night", nightTheme)
  , ("terrain", terrainTheme), ("minimal", minimalTheme) ]

/-- `getTheme(themeName)` from src/styles/themes.js:
`themes[themeName] || null`. -/
def getTheme (themeName : String) : Option Theme :=
  objGet themes themeName

/-! ## The state store (src/state/AppState.js)

The store is a record of the fields the constructor initializes.  The
error queue keeps only the message of each entry (the code adds a
wall-clock timestamp and a random id, which no claim observes, and
which have no pure counterpart).  Event emission does not change store
state, so `emit` calls are dropped here; the reference-level payload
aliasing of `emit('styleChanged', {style: this.currentStyle})` is
modelled separately in the heap section below. -/

structure AppState where
  currentStyle : StyleDoc
  layerVisibility : List (String × Bool)
  styleHistory : List StyleDoc
  historyIndex : Nat
  activeTheme : String
  isLoading : Bool
  errors : List String
  maxHistorySize : Nat
  deriving DecidableEq

/-- `deepClone` (src/utils/helpers.js) recursively copies a JS value.
On immutable Lean values copying is the identity; the fact that it
allocates a fresh object is what the heap model below captures. -/
def deepClone (d : StyleDoc) : StyleDoc := d

/-- `AppState._initializeLayerVisibility`: one entry per `layerConfig`
key, set to `config.defaultVisible`. -/
def initializeLayerVisibility : List (String × Bool) :=
  layerConfig.map (fun p => (p.1, p.2.defaultVisible))

/-- The `AppState` constructor. -/
def initialState : AppState :=
  { currentStyle := deepClone defaultStyle
    layerVisibility := initializeLayerVisibility
    styleHistory := [deepClone defaultStyle]
    historyIndex := 0
    activeTheme := "default"
    isLoading := false
    errors := []
    maxHistorySize := 50 }

/-- `canUndo()`: `this.historyIndex > 0`. -/
def AppState.canUndo (s : AppState) : Bool :=
  decide (0 < s.historyIndex)

/-- `canRedo()`: `this.historyIndex < this.styleHistory.length - 1`
(JS integer arithmetic; `i < n - 1 ↔ i + 1 < n` over the integers). -/
def AppState.canRedo (s : AppState) : Bool :=
  decide (s.historyIndex + 1 < s.styleHistory.length)

/-- `AppState._pushToHistory`: truncate redo tail, append a clone of the
current document, then evict the oldest entry if the bound is
exceeded. -/
def AppState.pushToHistory (s : AppState) : AppState :=
  -- if (this.historyIndex < this.styleHistory.length - 1) slice(0, historyIndex + 1)
  let hist :=
    if s.historyIndex + 1 < s.styleHistory.length then
      s.styleHistory.take (s.historyIndex + 1)
    else
      s.styleHistory
  -- this.styleHistory.push(deepClone(this.currentStyle)); historyIndex = length - 1
  let hist := hist ++ [deepClone s.currentStyle]
  let idx := hist.length - 1
  -- if (length > maxHistorySize) { shift(); historyIndex-- }
  if s.maxHistorySize < hist.length then
    { s with styleHistory := hist.drop 1, historyIndex := idx - 1 }
  else
    { s with styleHistory := hist, historyIndex := idx }

/-- `style.layers.find(l => l.id === layerId)`. -/
def findLayer (d : StyleDoc) (layerId : String) : Option Layer :=
  d.layerList.find? (fun l => l.id = layerId)

/-- In-place mutation of the first layer `find` returns: every other
element of the array is untouched. -/
def updateFirstLayer : List Layer → String → (Layer → Layer) → List Layer
  | [], _, _ => []
  | l :: ls, layerId, f =>
      if l.id = layerId then f l :: ls else l :: updateFirstLayer ls layerId f

/-- Rewrite the layer array of a document (identity when `layers` is
absent, where the JS code would throw). -/
def StyleDoc.mapLayers (d : StyleDoc) (f : List Layer → List Layer) : StyleDoc :=
  { d with layers := d.layers.map f }

/-- `updateStyle(layerId, property, value)`: fail (warn, return false)
when no layer has the id; otherwise set `paint[property] = value` on
the first matching layer, creating the paint object if absent, and push
to history. -/
def AppState.updateStyle (s : AppState) (layerId property : String)
    (value : JValue) : Bool × AppState :=
  if (findLayer s.currentStyle layerId).isNone then
    (false, s)
  else
    let s' := { s with currentStyle := s.currentStyle.mapLayers (fun ls =>
      updateFirstLayer ls layerId (fun l =>
        { l with paint := some (objSet (l.paint.getD []) property value) })) }
    (true, s'.pushToHistory)

/-- `toggleLayerVisibility(layerId, visible)`: when `visible` is
omitted, negate the current map entry (`!undefined` is `true`); set the
map entry; if a layer with the id exists, set its layout `visibility`
to `"visible"`/`"none"` (creating the layout object if absent).  No
history push. -/
def AppState.toggleLayerVisibility (s : AppState) (layerId : String)
    (visible? : Option Bool) : Bool × AppState :=
  let visible := visible?.getD (!(objGet s.layerVisibility layerId).getD false)
  let s' := { s with
    layerVisibility := objSet s.layerVisibility layerId visible
    currentStyle := s.currentStyle.mapLayers (fun ls =>
      updateFirstLayer ls layerId (fun l =>
        { l with layout := some (objSet (l.layout.getD [])
            "visibility" (.str (if visible then "visible" else "none"))) })) }
  (visible, s')

/-- One iteration of the `applyTheme` loop over
`Object.entries(themeData.layers)`: if the entry carries a paint
object and the document has a layer with the entry's id, spread the
overrides into that layer's paint
(`layer.paint = {...layer.paint, ...layerChanges.paint}`). -/
def themeLayerStep (d : StyleDoc) (p : String × ThemeLayerChange) : StyleDoc :=
  match p.2.paint with
  | some overrides =>
      d.mapLayers (fun ls => updateFirstLayer ls p.1 (fun l =>
        { l with paint := some (objMerge (l.paint.getD []) overrides) }))
  | none => d

/-- The document transformation of `applyTheme(themeName, themeData)`:
the per-layer loop, then the merge of any background override into the
`background` layer the same way. -/
def applyThemeDoc (doc : StyleDoc) (themeData : Theme) : StyleDoc :=
  let d := themeData.layers.foldl themeLayerStep doc
  match themeData.background with
  | some bg =>
      d.mapLayers (fun ls => updateFirstLayer ls "background" (fun l =>
        { l with paint := some (objMerge (l.paint.getD []) bg) }))
  | none => d

/-- `applyTheme(themeName, themeData)`: transform the document, set
the active theme, push once.  `isLoading` is raised at entry and
cleared in `finally`, so it is `false` in the returned state. -/
def AppState.applyTheme (s : AppState) (themeName : String)
    (themeData : Theme) : Bool × AppState :=
  let s' := { s with currentStyle := applyThemeDoc s.currentStyle themeData
                     activeTheme := themeName
                     isLoading := false }
  (true, s'.pushToHistory)

/-- `addError(error)` keeps the message of the queued entry. -/
def AppState.addError (s : AppState) (msg : String) : AppState :=
  { s with errors := s.errors ++ [msg] }

/-- `removeError(errorId)` splices out the first matching entry. -/
def AppState.removeError (s : AppState) (msg : String) : AppState :=
  { s with errors := s.errors.erase msg }

/-- `clearErrors()`. -/
def AppState.clearErrors (s : AppState) : AppState :=
  { s with errors := [] }

/-- `ThemeSelector._applyTheme(themeName)`: look the name up with
`getTheme`; on `null` throw before ever calling the store, landing in
the catch block which calls `appState.addError`; otherwise call
`appState.applyTheme(themeName, themeData)`. -/
def applyThemeByName (s : AppState) (themeName : String) : Bool × AppState :=
  match getTheme themeName with
  | none => (false, s.addError ("Failed to apply " ++ themeName ++ " theme"))
  | some themeData => s.applyTheme themeName themeData

/-- `undo()`. -/
def AppState.undo (s : AppState) : Bool × AppState :=
  if s.canUndo then
    let idx := s.historyIndex - 1
    (true, { s with historyIndex := idx,
                    currentStyle := deepClone (s.styleHistory.getD idx default) })
  else
    (false, s)

/-- `redo()`. -/
def AppState.redo (s : AppState) : Bool × AppState :=
  if s.canRedo then
    let idx := s.historyIndex + 1
    (true, { s with historyIndex := idx,
                    currentStyle := deepClone (s.styleHistory.getD idx default) })
  else
    (false, s)

/-- `resetToDefault()`. -/
def AppState.resetToDefault (s : AppState) : AppState :=
  ({ s with currentStyle := deepClone defaultStyle
            layerVisibility := initializeLayerVisibility
            activeTheme := "default" }).pushToHistory

/-- `getCurrentStyle()` (value level). -/
def AppState.getCurrentStyle (s : AppState) : StyleDoc :=
  deepClone s.currentStyle

/-! ## Import (src/ui/ExportControls.js) -/

/-- `url.startsWith('pmtiles://')`, computed on the character lists so
that it evaluates by reduction. -/
def strStartsWith (s pre : String) : Bool :=
  pre.data.isPrefixOf s.data

/-- `ExportControls._validateStyleObject(style)`.  JS truthiness:
`!style.version` also fires on the number `0`, `!layer.id` and
`!layer.type` also fire on the empty string; `source.url &&
source.url.startsWith('pmtiles://')` skips sources without a url. -/
def validateStyleObject (style : StyleDoc) : Bool × List String :=
  let errs : List String := []
  let errs := if style.version.getD 0 = 0 then
    errs ++ ["Missing version property"] else errs
  let errs := if style.sources.isNone then
    errs ++ ["Missing sources property"] else errs
  let errs := if style.layers.isNone then
    errs ++ ["Missing or invalid layers property"] else errs
  let errs :=
    match style.layers with
    | some ls =>
        errs ++ (ls.enum.foldl (fun acc il =>
          acc ++ (if il.2.id = "" then
                    ["Layer " ++ toString il.1 ++ " missing id"] else [])
              ++ (if il.2.type = "" then
                    ["Layer " ++ (if il.2.id = "" then toString il.1 else il.2.id)
                       ++ " missing type"] else [])) [])
    | none => errs
  let errs :=
    match style.sources with
    | some srcs =>
        if (srcs.filter (fun p =>
              strStartsWith (p.2.url.getD "") "pmtiles://")).length = 0 then
          errs ++ ["No PMTiles sources found - style may not work correctly"]
        else errs
    | none => errs
  (errs.isEmpty, errs)

/-- `ExportControls.importStyleJSON` after JSON parsing: validate;
on failure add an error and leave the store untouched; on success
assign the document, spread any saved visibility map over the current
one, adopt any saved active theme (a truthiness check, so the empty
string is ignored), and push once to history. -/
def importStyleJSON (s : AppState) (styleData : StyleDoc) : Bool × AppState :=
  if !(validateStyleObject styleData).1 then
    (false, s.addError "Failed to import style JSON")
  else
    let s1 := { s with currentStyle := styleData }
    let mr := styleData.metadata.bind (·.mapRemix)
    let s2 :=
      match mr.bind (·.layerVisibility) with
      | some lv => { s1 with layerVisibility := objMerge s1.layerVisibility lv }
      | none => s1
    let s3 :=
      match mr.bind (·.activeTheme) with
      | some t => if t = "" then s2 else { s2 with activeTheme := t }
      | none => s2
    (true, s3.pushToHistory)

/-! ## Reachability

One step per public operation of the store (plus the import path of
ExportControls, which writes the store's fields directly). -/

inductive Step : AppState → AppState → Prop where
  | update (s : AppState) (layerId property : String) (value : JValue) :
      Step s (s.updateStyle layerId property value).2
  | toggle (s : AppState) (layerId : String) (visible? : Option Bool) :
      Step s (s.toggleLayerVisibility layerId visible?).2
  | theme (s : AppState) (themeName : String) :
      Step s (applyThemeByName s themeName).2
  | undo (s : AppState) : Step s s.undo.2
  | redo (s : AppState) : Step s s.redo.2
  | reset (s : AppState) : Step s s.resetToDefault
  | importJSON (s : AppState) (styleData : StyleDoc) :
      Step s (importStyleJSON s styleData).2
  | addErr (s : AppState) (msg : String) : Step s (s.addError msg)
  | removeErr (s : AppState) (msg : String) : Step s (s.removeError msg)
  | clearErrs (s : AppState) : Step s s.clearErrors

inductive Reachable : AppState → Prop where
  | init : Reachable initialState
  | step {s t : AppState} : Reachable s → Step s t → Reachable t

/-! ## Reference-level model of document aliasing

JS passes objects by reference, so copy-isolation claims are about
which addresses cross the store boundary.  The heap holds style
documents at integer addresses; `alloc` appends a fresh cell (what
`deepClone` does for an object), `write` is an in-place mutation
through a reference.  The store keeps the address of its current
document and the addresses of its history entries. -/

structure Heap where
  cells : List StyleDoc
  deriving DecidableEq

def Heap.alloc (h : Heap) (d : StyleDoc) : Heap × Nat :=
  (⟨h.cells ++ [d]⟩, h.cells.length)

def Heap.read (h : Heap) (r : Nat) : StyleDoc :=
  h.cells.getD r default

def Heap.write (h : Heap) (r : Nat) (d : StyleDoc) : Heap :=
  ⟨h.cells.set r d⟩

/-- `deepClone` at the reference level: a fresh address holding an
equal value. -/
def deepCloneRef (h : Heap) (r : Nat) : Heap × Nat :=
  h.alloc (h.read r)

structure AppStateRef where
  currentStyleRef : Nat
  historyRefs : List Nat
  historyIndex : Nat
  maxHistorySize : Nat
  deriving DecidableEq

/-- The constructor at the reference level: `this.currentStyle =
deepClone(defaultStyle)` allocates, then `this.styleHistory =
[deepClone(this.currentStyle)]` allocates again. -/
def initialHeapState : Heap × AppStateRef :=
  let a1 := Heap.alloc ⟨[]⟩ defaultStyle
  let a2 := deepCloneRef a1.1 a1.2
  (a2.1, ⟨a1.2, [a2.2], 0, 50⟩)

/-- `_pushToHistory` at the reference level: the history keeps the
address of a fresh clone, never the address of the live document. -/
def pushToHistoryRef (h : Heap) (s : AppStateRef) : Heap × AppStateRef :=
  let refs :=
    if s.historyIndex + 1 < s.historyRefs.length then
      s.historyRefs.take (s.historyIndex + 1)
    else
      s.historyRefs
  let c := deepCloneRef h s.currentStyleRef
  let refs := refs ++ [c.2]
  let idx := refs.length - 1
  if s.maxHistorySize < refs.length then
    (c.1, { s with historyRefs := refs.drop 1, historyIndex := idx - 1 })
  else
    (c.1, { s with historyRefs := refs, historyIndex := idx })

/-- `getCurrentStyle()` at the reference level:
`return deepClone(this.currentStyle)` hands out a fresh address. -/
def getCurrentStyleRef (h : Heap) (s : AppStateRef) : Heap × Nat :=
  deepCloneRef h s.currentStyleRef

/-- `updateStyle` at the reference level: the layer object inside the
current document is mutated in place (the document keeps its address),
a clone is pushed to history, and the `styleChanged` event is emitted
with `style: this.currentStyle` — the address in the payload is the
store's own.  Returns (heap, state, success, payload style address). -/
def updateStyleRef (h : Heap) (s : AppStateRef) (layerId property : String)
    (value : JValue) : Heap × AppStateRef × Bool × Option Nat :=
  let doc := h.read s.currentStyleRef
  if (findLayer doc layerId).isNone then
    (h, s, false, none)
  else
    let doc' := doc.mapLayers (fun ls =>
      updateFirstLayer ls layerId (fun l =>
        { l with paint := some (objSet (l.paint.getD []) property value) }))
    let h1 := h.write s.currentStyleRef doc'
    let p := pushToHistoryRef h1 s
    (p.1, p.2, true, some s.currentStyleRef)

/-- One reference-level paint update from the freshly constructed
store, keeping the emitted payload's style address. -/
def exHeapUpdate : Heap × AppStateRef × Bool × Option Nat :=
  updateStyleRef initialHeapState.1 initialHeapState.2
    "colorado_rivers" "line-color" (.str "#ff0000")

/-! ## Claim-side predicates and shared example states -/

/-- Layer identifiers of a document, in order. -/
def layerIds (d : StyleDoc) : List String :=
  d.layerList.map Layer.id

/-- The visibility-map/document consistency the specification states:
for each layer of the current document, the map entry for its id is
`true` exactly when the layer's layout `visibility` is not "none". -/
def visibilityConsistent (s : AppState) : Prop :=
  ∀ l ∈ s.currentStyle.layerList,
    (objGet s.layerVisibility l.id = some true ↔
      objGet (l.layout.getD []) "visibility" ≠ some (JValue.str "none"))

instance (s : AppState) : Decidable (visibilityConsistent s) := by
  unfold visibilityConsistent; infer_instance

/-- State after one paint mutation from the initial state (pushes). -/
def exUpdated : AppState :=
  (initialState.updateStyle "colorado_rivers" "line-color" (.str "#000000")).2

/-- ... then a visibility toggle (which does not push). -/
def exToggled : AppState :=
  (exUpdated.toggleLayerVisibility "colorado_rivers" none).2

/-- ... then an undo. -/
def exUndone : AppState :=
  exToggled.undo.2

/-- A structurally valid style document whose layer ids match the
theme bundles (`co_roads` with a pre-existing paint mapping), used to
exercise the theme merge. -/
def coDoc : StyleDoc :=
  { version := some 8
    sources := some [("s", ⟨"vector", some "pmtiles://x.pmtiles"⟩)]
    layers := some
      [ { id := "background", type := "background",
          paint := some [("background-color", .str "#ffffff")] }
      , { id := "co_roads", type := "line",
          paint := some [("line-color", .str "#111111"),
                         ("line-blur", .num 1)] } ] }

/-- State after importing `coDoc` (used to exercise the theme merge on
layers the bundles actually name). -/
def exImported : AppState := (importStyleJSON initialState coDoc).2

/-- A structurally valid style document carrying two layers with the
same id. -/
def dupDoc : StyleDoc :=
  { version := some 8
    sources := some [("s", ⟨"vector", some "pmtiles://x.pmtiles"⟩)]
    layers := some [{ id := "a", type := "line" }, { id := "a", type := "line" }] }

/-! ## List lemmas for the history stack -/

lemma listGetD_append_last (t : List α) (c d : α) :
    (t ++ [c]).getD t.length d = c := by
  induction t with
  | nil => rfl
  | cons x xs ih => exact ih

lemma listGetD_append_lt (t : List α) (c d : α) (i : Nat) (h : i < t.length) :
    (t ++ [c]).getD i d = t.getD i d := by
  induction t generalizing i with
  | nil => exact absurd h (by simp)
  | cons x xs ih =>
      cases i with
      | zero => rfl
      | succ j => simpa using ih j (by simpa using h)

lemma listGetD_drop_one (l : List α) (i : Nat) (d : α) :
    (l.drop 1).getD i d = l.getD (i + 1) d := by
  cases l <;> rfl

lemma listGetD_take (l : List α) (k i : Nat) (d : α) (h : i < k) :
    (l.take k).getD i d = l.getD i d := by
  induction l generalizing k i with
  | nil => simp
  | cons x xs ih =>
      cases k with
      | zero => exact absurd h (by simp)
      | succ m =>
          cases i with
          | zero => rfl
          | succ j => simpa using ih m j (by omega)

/-! ## The push discipline -/

/-- Combined behaviour of `_pushToHistory` on any state whose cursor is
in range and whose bound is at least 2 (the constructor uses 50): the
cursor ends at the last index; the entry at the cursor is the pushed
document; the cursor is at least 1 and the entry just before it is the
entry the cursor named before the push; the bound is preserved; no
field other than the history and the cursor changes. -/
lemma pushToHistory_spec (s : AppState) (hm : 2 ≤ s.maxHistorySize)
    (hlt : s.historyIndex < s.styleHistory.length) :
    (s.pushToHistory).historyIndex + 1 = (s.pushToHistory).styleHistory.length ∧
    (s.pushToHistory).styleHistory.getD (s.pushToHistory).historyIndex default
      = s.currentStyle ∧
    1 ≤ (s.pushToHistory).historyIndex ∧
    (s.pushToHistory).styleHistory.getD ((s.pushToHistory).historyIndex - 1) default
      = s.styleHistory.getD s.historyIndex default ∧
    (s.styleHistory.length ≤ s.maxHistorySize →
      (s.pushToHistory).styleHistory.length ≤ s.maxHistorySize) ∧
    (s.pushToHistory).currentStyle = s.currentStyle ∧
    (s.pushToHistory).layerVisibility = s.layerVisibility ∧
    (s.pushToHistory).activeTheme = s.activeTheme ∧
    (s.pushToHistory).errors = s.errors ∧
    (s.pushToHistory).maxHistorySize = s.maxHistorySize ∧
    (s.pushToHistory).isLoading = s.isLoading := by
  unfold AppState.pushToHistory
  set pre := s.styleHistory with hpre
  by_cases h1 : s.historyIndex + 1 < pre.length
  · -- the cursor is strictly inside the stack: truncation keeps [0..cursor]
    have htl : (pre.take (s.historyIndex + 1)).length = s.historyIndex + 1 :=
      List.length_take_of_le (by omega)
    simp only [if_pos h1]
    set t := pre.take (s.historyIndex + 1) with ht
    by_cases h2 : s.maxHistorySize < (t ++ [deepClone s.currentStyle]).length
    · simp only [if_pos h2]
      simp only [List.length_append, List.length_drop, List.length_singleton, htl] at h2 ⊢
      have hc : ((t ++ [deepClone s.currentStyle]).drop 1).getD
          (s.historyIndex + 1 + 1 - 1 - 1) default = deepClone s.currentStyle := by
        rw [listGetD_drop_one]
        have : s.historyIndex + 1 + 1 - 1 - 1 + 1 = t.length := by omega
        rw [this, listGetD_append_last]
      have hp : ((t ++ [deepClone s.currentStyle]).drop 1).getD
          (s.historyIndex + 1 + 1 - 1 - 1 - 1) default
          = pre.getD s.historyIndex default := by
        rw [listGetD_drop_one]
        have he : s.historyIndex + 1 + 1 - 1 - 1 - 1 + 1 = s.historyIndex := by omega
        rw [he, listGetD_append_lt _ _ _ _ (by omega), ht,
          listGetD_take _ _ _ _ (by omega)]
      refine ⟨by omega, hc, by omega, hp, by omega, trivial, trivial, trivial, trivial, trivial, trivial⟩
    · simp only [if_neg h2]
      simp only [List.length_append, List.length_singleton, htl] at h2 ⊢
      have hc : (t ++ [deepClone s.currentStyle]).getD
          (s.historyIndex + 1 + 1 - 1) default = deepClone s.currentStyle := by
        have : s.historyIndex + 1 + 1 - 1 = t.length := by omega
        rw [this, listGetD_append_last]
      have hp : (t ++ [deepClone s.currentStyle]).getD
          (s.historyIndex + 1 + 1 - 1 - 1) default
          = pre.getD s.historyIndex default := by
        have he : s.historyIndex + 1 + 1 - 1 - 1 = s.historyIndex := by omega
        rw [he, listGetD_append_lt _ _ _ _ (by omega), ht,
          listGetD_take _ _ _ _ (by omega)]
      refine ⟨by omega, hc, by omega, hp, by omega, trivial, trivial, trivial, trivial, trivial, trivial⟩
  · -- the cursor is at the last index: nothing is truncated
    have hidx : s.historyIndex + 1 = pre.length := by omega
    simp only [if_neg h1]
    by_cases h2 : s.maxHistorySize < (pre ++ [deepClone s.currentStyle]).length
    · simp only [if_pos h2]
      simp only [List.length_append, List.length_drop, List.length_singleton] at h2 ⊢
      have hc : ((pre ++ [deepClone s.currentStyle]).drop 1).getD
          (pre.length + 1 - 1 - 1) default = deepClone s.currentStyle := by
        rw [listGetD_drop_one]
        have : pre.length + 1 - 1 - 1 + 1 = pre.length := by omega
        rw [this, listGetD_append_last]
      have hp : ((pre ++ [deepClone s.currentStyle]).drop 1).getD
          (pre.length + 1 - 1 - 1 - 1) default = pre.getD s.historyIndex default := by
        rw [listGetD_drop_one]
        have he : pre.length + 1 - 1 - 1 - 1 + 1 = s.historyIndex := by omega
        rw [he, listGetD_append_lt _ _ _ _ (by omega)]
      refine ⟨by omega, hc, by omega, hp, by omega, trivial, trivial, trivial, trivial, trivial, trivial⟩
    · simp only [if_neg h2]
      simp only [List.length_append, List.length_singleton] at h2 ⊢
      have hc : (pre ++ [deepClone s.currentStyle]).getD
          (pre.length + 1 - 1) default = deepClone s.currentStyle := by
        have : pre.length + 1 - 1 = pre.length := by omega
        rw [this, listGetD_append_last]
      have hp : (pre ++ [deepClone s.currentStyle]).getD
          (pre.length + 1 - 1 - 1) default = pre.getD s.historyIndex default := by
        have he : pre.length + 1 - 1 - 1 = s.historyIndex := by omega
        rw [he, listGetD_append_lt _ _ _ _ (by omega)]
      refine ⟨by omega, hc, by omega, hp, by omega, trivial, trivial, trivial, trivial, trivial, trivial⟩

/-- Behaviour of a successful `undo()`. -/
lemma undo_spec (s : AppState) (h : 0 < s.historyIndex) :
    s.undo.1 = true ∧
    s.undo.2.currentStyle = s.styleHistory.getD (s.historyIndex - 1) default ∧
    s.undo.2.activeTheme = s.activeTheme ∧
    s.undo.2.layerVisibility = s.layerVisibility ∧
    s.undo.2.styleHistory = s.styleHistory ∧
    s.undo.2.historyIndex = s.historyIndex - 1 := by
  unfold AppState.undo AppState.canUndo
  simp only [decide_eq_true_eq]
  rw [if_pos h]
  exact ⟨rfl, rfl, rfl, rfl, rfl, rfl⟩

/-- A push from a cursor-at-end state with room to spare appends
exactly one snapshot. -/
lemma pushToHistory_append (s : AppState)
    (hend : s.historyIndex + 1 = s.styleHistory.length)
    (hroom : s.styleHistory.length < s.maxHistorySize) :
    (s.pushToHistory).styleHistory = s.styleHistory ++ [s.currentStyle] ∧
    (s.pushToHistory).currentStyle = s.currentStyle := by
  unfold AppState.pushToHistory
  simp only [deepClone]
  have h1 : ¬ s.historyIndex + 1 < s.styleHistory.length := by omega
  rw [if_neg h1]
  have h2 : ¬ s.maxHistorySize < (s.styleHistory ++ [s.currentStyle]).length := by
    simp only [List.length_append, List.length_singleton]; omega
  rw [if_neg h2]
  exact ⟨rfl, rfl⟩

lemma find?_map_objSet (o : List (String × α)) (k : String) (v : α)
    (h : o.any (fun p => p.1 = k)) :
    (o.map (fun p => if p.1 = k then (k, v) else p)).find? (fun p => p.1 = k)
      = some (k, v) := by
  induction o with
  | nil => simp at h
  | cons p ps ih =>
      by_cases hp : p.1 = k
      · simp [List.find?_cons, if_pos hp]
      · have h' : ps.any (fun p => p.1 = k) := by simpa [hp] using h
        simp only [List.map_cons, if_neg hp]
        rw [List.find?_cons_of_neg _ (by simpa using hp)]
        exact ih h'

lemma find?_append_objSet (o : List (String × α)) (k : String) (v : α)
    (h : ¬ o.any (fun p => p.1 = k)) :
    (o ++ [(k, v)]).find? (fun p => p.1 = k) = some (k, v) := by
  induction o with
  | nil => simp [List.find?]
  | cons p ps ih =>
      simp only [List.any_cons, Bool.or_eq_true, not_or] at h
      rw [List.cons_append, List.find?_cons_of_neg _ (by simpa using h.1)]
      exact ih (by simpa using h.2)

/-- `o[k] = v` makes a later lookup of `k` return `v`. -/
lemma objGet_objSet_self (o : List (String × α)) (k : String) (v : α) :
    objGet (objSet o k v) k = some v := by
  unfold objGet objSet
  by_cases h : o.any (fun p => p.1 = k)
  · rw [if_pos h, find?_map_objSet o k v h]
    rfl
  · rw [if_neg h, find?_append_objSet o k v h]
    rfl

/-- Mutating the first id-match commutes with `find` by the same id,
provided the mutation keeps the id. -/
lemma findLayer_updateFirst (ls : List Layer) (lid : String) (f : Layer → Layer)
    (hid : ∀ l, (f l).id = l.id) :
    (updateFirstLayer ls lid f).find? (fun l => l.id = lid)
      = (ls.find? (fun l => l.id = lid)).map f := by
  induction ls with
  | nil => rfl
  | cons l ls ih =>
      unfold updateFirstLayer
      by_cases hl : l.id = lid
      · rw [if_pos hl, List.find?_cons_of_pos _ (by simp [hid, hl]),
          List.find?_cons_of_pos _ (by simp [hl])]
        rfl
      · rw [if_neg hl, List.find?_cons_of_neg _ (by simpa using hl),
          List.find?_cons_of_neg _ (by simpa using hl)]
        exact ih

/-! ## Claim theorems -/

/-- C1.  Immediately after any push on a state satisfying the history
invariants (bound 50, stack within bound, cursor in range), the stack
length is at most 50, the cursor is the last index and names the
snapshot just pushed; and when the push started from a full stack with
the cursor at the end, the oldest entry (index 0) is evicted: the new
stack is the old one without its head, plus the new snapshot. -/
theorem pushToHistory_bounded_cursor_last (s : AppState)
    (hmax : s.maxHistorySize = 50)
    (hlen : s.styleHistory.length ≤ 50)
    (hlt : s.historyIndex < s.styleHistory.length) :
    (s.pushToHistory).styleHistory.length ≤ 50 ∧
    (s.pushToHistory).historyIndex + 1 = (s.pushToHistory).styleHistory.length ∧
    (s.pushToHistory).styleHistory.getD (s.pushToHistory).historyIndex default
      = s.currentStyle ∧
    (s.historyIndex + 1 = s.styleHistory.length ∧ s.styleHistory.length = 50 →
      (s.pushToHistory).styleHistory
        = s.styleHistory.drop 1 ++ [s.currentStyle]) := by
  obtain ⟨h1, h2, _, _, h5, _⟩ :=
    pushToHistory_spec s (by omega) hlt
  refine ⟨by rw [← hmax]; exact h5 (by omega), h1, h2, ?_⟩
  rintro ⟨hend, hfull⟩
  unfold AppState.pushToHistory
  have hnt : ¬ s.historyIndex + 1 < s.styleHistory.length := by omega
  simp only [if_neg hnt]
  have hov : s.maxHistorySize <
      (s.styleHistory ++ [deepClone s.currentStyle]).length := by
    simp only [List.length_append, List.length_singleton]; omega
  simp only [if_pos hov]
  rw [List.drop_append_of_le_length (by omega)]
  rfl

/-- Witness for C1 at the initial state. -/
theorem pushToHistory_bounded_cursor_last_witness :
    (initialState.pushToHistory).styleHistory.length ≤ 50 ∧
    (initialState.pushToHistory).historyIndex + 1
      = (initialState.pushToHistory).styleHistory.length ∧
    (initialState.pushToHistory).styleHistory.getD
      (initialState.pushToHistory).historyIndex default
      = initialState.currentStyle ∧
    (initialState.historyIndex + 1 = initialState.styleHistory.length ∧
        initialState.styleHistory.length = 50 →
      (initialState.pushToHistory).styleHistory
        = initialState.styleHistory.drop 1 ++ [initialState.currentStyle]) :=
  pushToHistory_bounded_cursor_last initialState rfl (by decide) (by decide)

/-- C3.  Every push first discards all history entries after the
cursor, then appends the pushed snapshot at the end (with the usual
bound eviction); consequently `canRedo` is false immediately after any
push, so `redo()` returns false and leaves the state unchanged. -/
theorem pushToHistory_truncates_and_kills_redo (s : AppState) :
    (s.pushToHistory).styleHistory
      = (if s.maxHistorySize <
            (s.styleHistory.take (s.historyIndex + 1) ++ [s.currentStyle]).length
         then (s.styleHistory.take (s.historyIndex + 1) ++ [s.currentStyle]).drop 1
         else s.styleHistory.take (s.historyIndex + 1) ++ [s.currentStyle]) ∧
    (s.pushToHistory).canRedo = false ∧
    ((s.pushToHistory).redo).1 = false ∧
    ((s.pushToHistory).redo).2 = s.pushToHistory := by
  have hshape : (s.pushToHistory).styleHistory
      = (if s.maxHistorySize <
            (s.styleHistory.take (s.historyIndex + 1) ++ [s.currentStyle]).length
         then (s.styleHistory.take (s.historyIndex + 1) ++ [s.currentStyle]).drop 1
         else s.styleHistory.take (s.historyIndex + 1) ++ [s.currentStyle]) := by
    unfold AppState.pushToHistory
    simp only [deepClone]
    by_cases h1 : s.historyIndex + 1 < s.styleHistory.length
    · simp only [if_pos h1]
      split_ifs <;> rfl
    · have : s.styleHistory.take (s.historyIndex + 1) = s.styleHistory :=
        List.take_of_length_le (by omega)
      simp only [if_neg h1, this]
      split_ifs <;> rfl
  have hredo : (s.pushToHistory).canRedo = false := by
    unfold AppState.pushToHistory
    by_cases h1 : s.historyIndex + 1 < s.styleHistory.length <;>
      [simp only [if_pos h1]; simp only [if_neg h1]] <;>
    · split_ifs with h2 <;>
      · unfold AppState.canRedo
        simp only [List.length_append, List.length_singleton, List.length_drop,
          List.length_take] at h2 ⊢
        simp only [decide_eq_false_iff_not]
        omega
  refine ⟨hshape, hredo, ?_, ?_⟩ <;>
  · unfold AppState.redo
    rw [hredo]
    simp

/-- C10.  `undo()` and `redo()` — whether they succeed or no-op —
change only the cursor and the current document: the history sequence,
the visibility map, the active theme, the error queue, the loading
flag and the bound are untouched. -/
theorem undo_redo_frame (s : AppState) :
    ((s.undo).2.styleHistory = s.styleHistory ∧
     (s.undo).2.layerVisibility = s.layerVisibility ∧
     (s.undo).2.activeTheme = s.activeTheme ∧
     (s.undo).2.errors = s.errors ∧
     (s.undo).2.isLoading = s.isLoading ∧
     (s.undo).2.maxHistorySize = s.maxHistorySize) ∧
    ((s.redo).2.styleHistory = s.styleHistory ∧
     (s.redo).2.layerVisibility = s.layerVisibility ∧
     (s.redo).2.activeTheme = s.activeTheme ∧
     (s.redo).2.errors = s.errors ∧
     (s.redo).2.isLoading = s.isLoading ∧
     (s.redo).2.maxHistorySize = s.maxHistorySize) := by
  unfold AppState.undo AppState.redo
  split_ifs <;> simp

/-- C2 counterexample.  `exToggled` is reachable (one paint update,
then one visibility toggle), `undo()` succeeds on it, yet
`undo(); redo()` does not restore the pre-undo document: the toggle
mutated the document without pushing, so the cursor snapshot is
stale. -/
theorem undo_redo_roundtrip_cex :
    Reachable exToggled ∧
    exToggled.undo.1 = true ∧
    exToggled.undo.2.redo.2.currentStyle ≠ exToggled.currentStyle :=
  ⟨Reachable.step
      (Reachable.step Reachable.init
        (Step.update initialState "colorado_rivers" "line-color" (.str "#000000")))
      (Step.toggle exUpdated "colorado_rivers" none),
   by decide, by decide⟩

/-- C2 as amended.  On any state where `undo()` succeeds and the
current document agrees with the snapshot the cursor names (true
whenever the last document-changing operation was a push, an undo or a
redo — but not after a bare visibility toggle), `undo()` followed by
`redo()` succeeds and restores the document bit for bit. -/
theorem undo_redo_roundtrip (s : AppState)
    (hidx : 0 < s.historyIndex)
    (hlen : s.historyIndex < s.styleHistory.length)
    (hsync : s.styleHistory.getD s.historyIndex default = s.currentStyle) :
    s.undo.1 = true ∧ s.undo.2.redo.1 = true ∧
    s.undo.2.redo.2.currentStyle = s.currentStyle := by
  have he : s.historyIndex - 1 + 1 = s.historyIndex := by omega
  unfold AppState.undo AppState.redo AppState.canUndo AppState.canRedo
  simp only [decide_eq_true_eq]
  split_ifs with h1
  · refine ⟨rfl, rfl, ?_⟩
    simp only [deepClone, he]
    exact hsync
  · exfalso
    simp only [he] at h1
    exact h1 hlen

/-- Witness for the amended C2 at the state reached by one paint
update from the initial state. -/
theorem undo_redo_roundtrip_witness :
    exUpdated.undo.1 = true ∧ exUpdated.undo.2.redo.1 = true ∧
    exUpdated.undo.2.redo.2.currentStyle = exUpdated.currentStyle :=
  undo_redo_roundtrip exUpdated (by decide) (by decide) (by decide)


/-- `pushToHistory_append` transported along field equalities, stated
so it unifies directly with post-mutation states. -/
lemma pushToHistory_append_from (S s : AppState)
    (hh : S.styleHistory = s.styleHistory)
    (hi : S.historyIndex = s.historyIndex)
    (hm : S.maxHistorySize = s.maxHistorySize)
    (hend : s.historyIndex + 1 = s.styleHistory.length)
    (hroom : s.styleHistory.length < s.maxHistorySize) :
    S.pushToHistory.styleHistory
      = s.styleHistory ++ [S.pushToHistory.currentStyle] := by
  obtain ⟨h1, h2⟩ := pushToHistory_append S
    (by rw [hh, hi]; exact hend) (by rw [hh, hm]; exact hroom)
  rw [h1, h2, hh]

/-- C4 as amended.  From any state with the cursor at the end of a
non-full history: a successful `updateStyle`, a successful
`applyTheme` (through the theme lookup), `resetToDefault`, and a
successful JSON import each append exactly one snapshot — the
resulting document — to the end of the history; a visibility toggle,
although it is a successful mutation that changes the document, never
touches the history. -/
theorem mutations_push_exactly_one (s : AppState)
    (hend : s.historyIndex + 1 = s.styleHistory.length)
    (hroom : s.styleHistory.length < s.maxHistorySize) :
    (∀ lid prop v, (s.updateStyle lid prop v).1 = true →
       (s.updateStyle lid prop v).2.styleHistory
         = s.styleHistory ++ [(s.updateStyle lid prop v).2.currentStyle]) ∧
    (∀ n, (applyThemeByName s n).1 = true →
       (applyThemeByName s n).2.styleHistory
         = s.styleHistory ++ [(applyThemeByName s n).2.currentStyle]) ∧
    (s.resetToDefault.styleHistory
       = s.styleHistory ++ [s.resetToDefault.currentStyle]) ∧
    (∀ d, (importStyleJSON s d).1 = true →
       (importStyleJSON s d).2.styleHistory
         = s.styleHistory ++ [(importStyleJSON s d).2.currentStyle]) ∧
    (∀ lid vis, (s.toggleLayerVisibility lid vis).2.styleHistory = s.styleHistory) := by
  refine ⟨?_, ?_, ?_, ?_, ?_⟩
  · intro lid prop v hok
    unfold AppState.updateStyle at hok ⊢
    by_cases hf : (findLayer s.currentStyle lid).isNone
    · rw [if_pos hf] at hok
      exact absurd hok (by simp)
    · rw [if_neg hf]
      exact pushToHistory_append_from _ s rfl rfl rfl hend hroom
  · intro n hok
    unfold applyThemeByName at hok ⊢
    cases hget : getTheme n with
    | none => rw [hget] at hok; simp at hok
    | some t =>
        exact pushToHistory_append_from _ s rfl rfl rfl hend hroom
  · unfold AppState.resetToDefault
    exact pushToHistory_append_from _ s rfl rfl rfl hend hroom
  · intro d hok
    unfold importStyleJSON at hok ⊢
    by_cases hv : (validateStyleObject d).1
    · rw [if_neg (by simpa using hv)]
      dsimp only
      cases hmr : d.metadata.bind (fun m => m.mapRemix) with
      | none =>
          exact pushToHistory_append_from _ s rfl rfl rfl hend hroom
      | some mr =>
          dsimp only [Option.bind]
          cases hlv : mr.layerVisibility with
          | none =>
              cases hat : mr.activeTheme with
              | none => exact pushToHistory_append_from _ s rfl rfl rfl hend hroom
              | some t =>
                  dsimp only
                  by_cases ht : t = "" <;>
                    [rw [if_pos ht]; rw [if_neg ht]] <;>
                    exact pushToHistory_append_from _ s rfl rfl rfl hend hroom
          | some lv =>
              cases hat : mr.activeTheme with
              | none => exact pushToHistory_append_from _ s rfl rfl rfl hend hroom
              | some t =>
                  dsimp only
                  by_cases ht : t = "" <;>
                    [rw [if_pos ht]; rw [if_neg ht]] <;>
                    exact pushToHistory_append_from _ s rfl rfl rfl hend hroom
    · rw [if_pos (by simpa using hv)] at hok
      exact absurd hok (by simp)
  · intro lid vis
    rfl


/-- Witness for the amended C4 at the initial state, including a
successful theme application ("terrain" is a real table entry). -/
theorem mutations_push_exactly_one_witness :
    (initialState.updateStyle "colorado_rivers" "line-width" (.num 5)).1 = true ∧
    (initialState.updateStyle "colorado_rivers" "line-width" (.num 5)).2.styleHistory
      = initialState.styleHistory
        ++ [(initialState.updateStyle "colorado_rivers" "line-width" (.num 5)).2.currentStyle] ∧
    (applyThemeByName initialState "terrain").1 = true ∧
    (applyThemeByName initialState "terrain").2.styleHistory
      = initialState.styleHistory
        ++ [(applyThemeByName initialState "terrain").2.currentStyle] ∧
    initialState.resetToDefault.styleHistory
      = initialState.styleHistory ++ [initialState.resetToDefault.currentStyle] :=
  ⟨by decide,
   (mutations_push_exactly_one initialState (by decide) (by decide)).1
     "colorado_rivers" "line-width" (.num 5) (by decide),
   by decide,
   (mutations_push_exactly_one initialState (by decide) (by decide)).2.1
     "terrain" (by decide),
   (mutations_push_exactly_one initialState (by decide) (by decide)).2.2.1⟩

/-- C4 counterexample.  Toggling a layer's visibility from the initial
state is a successful mutation that changes the current document, yet
the history stack is left exactly as it was: no snapshot is pushed. -/
theorem toggle_does_not_push_cex :
    (initialState.toggleLayerVisibility "colorado_rivers" none).2.styleHistory
      = initialState.styleHistory ∧
    (initialState.toggleLayerVisibility "colorado_rivers" none).2.currentStyle
      ≠ initialState.currentStyle :=
  ⟨by decide, by decide⟩


/-- C5 counterexample.  A reachable state (paint update, visibility
toggle, undo) in which the Visibility Map disagrees with the current
document: the undo restored the document's layout `visibility` without
touching the map. -/
theorem visibility_consistency_cex :
    Reachable exUndone ∧ ¬ visibilityConsistent exUndone :=
  ⟨Reachable.step
      (Reachable.step
        (Reachable.step Reachable.init
          (Step.update initialState "colorado_rivers" "line-color" (.str "#000000")))
        (Step.toggle exUpdated "colorado_rivers" none))
      (Step.undo exToggled),
   by decide⟩

/-- `findLayer_updateFirst` specialised to the layout-visibility
update performed by `toggleLayerVisibility`. -/
lemma findLayer_setVisibility (ls : List Layer) (lid : String) (v : JValue) :
    (updateFirstLayer ls lid (fun l =>
        { l with layout := some (objSet (l.layout.getD []) "visibility" v) })).find?
        (fun l => l.id = lid)
      = (ls.find? (fun l => l.id = lid)).map (fun l =>
          { l with layout := some (objSet (l.layout.getD []) "visibility" v) }) :=
  findLayer_updateFirst ls lid _ (fun _ => rfl)

/-- C5 as amended.  A visibility toggle of a layer present in the
document updates the Visibility Map entry and that layer's layout
`visibility` field together, to matching values; but `undo()` and
`redo()` restore the document while leaving the Visibility Map
untouched, so the global consistency invariant does not hold in all
reachable states. -/
theorem toggle_syncs_map_and_layout (s : AppState) (lid : String)
    (vis? : Option Bool)
    (hmem : (findLayer s.currentStyle lid).isSome = true) :
    objGet (s.toggleLayerVisibility lid vis?).2.layerVisibility lid
      = some (s.toggleLayerVisibility lid vis?).1 ∧
    (findLayer (s.toggleLayerVisibility lid vis?).2.currentStyle lid).map
        (fun l => objGet (l.layout.getD []) "visibility")
      = some (some (.str
          (if (s.toggleLayerVisibility lid vis?).1 then "visible" else "none"))) ∧
    s.undo.2.layerVisibility = s.layerVisibility ∧
    s.redo.2.layerVisibility = s.layerVisibility := by
  refine ⟨objGet_objSet_self _ _ _, ?_, ?_, ?_⟩
  · unfold findLayer StyleDoc.layerList at hmem ⊢
    unfold AppState.toggleLayerVisibility StyleDoc.mapLayers
    dsimp only
    cases hd : s.currentStyle.layers with
    | none => rw [hd] at hmem; simp at hmem
    | some ls =>
        rw [hd] at hmem
        simp only [Option.getD_some] at hmem
        simp only [Option.map_some', Option.getD_some]
        rw [findLayer_setVisibility]
        cases hf : ls.find? (fun l => l.id = lid) with
        | none => rw [hf] at hmem; simp at hmem
        | some l =>
            simp only [Option.map_some', Option.getD_some, objGet_objSet_self]
  · unfold AppState.undo
    split_ifs <;> rfl
  · unfold AppState.redo
    split_ifs <;> rfl


/-- Pushing from a state `t` that shares history, cursor and bound
with a cursor-synchronised state `s`, then undoing, lands back on
`s`'s document while keeping `t`'s active theme. -/
lemma push_then_undo (t s : AppState)
    (hh : t.styleHistory = s.styleHistory)
    (hi : t.historyIndex = s.historyIndex)
    (hmx : t.maxHistorySize = s.maxHistorySize)
    (hm : 2 ≤ s.maxHistorySize)
    (hlt : s.historyIndex < s.styleHistory.length)
    (hsync : s.styleHistory.getD s.historyIndex default = s.currentStyle) :
    t.pushToHistory.undo.1 = true ∧
    t.pushToHistory.undo.2.currentStyle = s.currentStyle ∧
    t.pushToHistory.undo.2.activeTheme = t.activeTheme := by
  obtain ⟨_, _, hge, hprev, _, _, _, hat, _, _, _⟩ :=
    pushToHistory_spec t (by rw [hmx]; exact hm) (by rw [hh, hi]; exact hlt)
  obtain ⟨hu1, hu2, hu3, _, _, _⟩ := undo_spec t.pushToHistory (by omega)
  refine ⟨hu1, ?_, by rw [hu3, hat]⟩
  rw [hu2, hprev, hi, hh]
  exact hsync

/-- C6 as amended.  Applying the known theme "night" and then calling
`undo()` (from any state whose document agrees with the cursor
snapshot) restores the document — hence every layer's paint mapping —
byte for byte; but the active theme identifier is NOT reverted: it
stays "night", because `undo()` only restores the document. -/
theorem theme_undo_restores_document (s : AppState)
    (hsync : s.styleHistory.getD s.historyIndex default = s.currentStyle)
    (hlt : s.historyIndex < s.styleHistory.length)
    (hm : 2 ≤ s.maxHistorySize) :
    ((applyThemeByName s "night").2.undo).1 = true ∧
    ((applyThemeByName s "night").2.undo).2.currentStyle = s.currentStyle ∧
    ((applyThemeByName s "night").2.undo).2.activeTheme = "night" := by
  have hget : getTheme "night" = some nightTheme := by decide
  unfold applyThemeByName
  rw [hget]
  exact push_then_undo _ s rfl rfl rfl hm hlt hsync

/-- C6 counterexample.  From the initial state (active theme
"default"), applying theme "night" and undoing leaves the active theme
identifier at "night": it does not revert to its pre-apply value. -/
theorem theme_undo_cex :
    (applyThemeByName initialState "night").2.undo.1 = true ∧
    (applyThemeByName initialState "night").2.undo.2.activeTheme = "night" ∧
    initialState.activeTheme = "default" ∧
    (applyThemeByName initialState "night").2.undo.2.activeTheme
      ≠ initialState.activeTheme :=
  ⟨by decide, by decide, by decide, by decide⟩

/-- Witness for the amended C6 at the initial state. -/
theorem theme_undo_restores_document_witness :
    ((applyThemeByName initialState "night").2.undo).1 = true ∧
    ((applyThemeByName initialState "night").2.undo).2.currentStyle
      = initialState.currentStyle ∧
    ((applyThemeByName initialState "night").2.undo).2.activeTheme = "night" :=
  theme_undo_restores_document initialState (by decide) (by decide) (by decide)


/-- Witness for the amended C5 at the initial state. -/
theorem toggle_syncs_map_and_layout_witness :
    objGet (initialState.toggleLayerVisibility "colorado_rivers" none).2.layerVisibility
        "colorado_rivers"
      = some (initialState.toggleLayerVisibility "colorado_rivers" none).1 ∧
    (findLayer (initialState.toggleLayerVisibility "colorado_rivers" none).2.currentStyle
        "colorado_rivers").map
        (fun l => objGet (l.layout.getD []) "visibility")
      = some (some (.str
          (if (initialState.toggleLayerVisibility "colorado_rivers" none).1
           then "visible" else "none"))) ∧
    initialState.undo.2.layerVisibility = initialState.layerVisibility ∧
    initialState.redo.2.layerVisibility = initialState.layerVisibility :=
  toggle_syncs_map_and_layout initialState "colorado_rivers" none (by decide)


lemma find?_map_objSet_ne (o : List (String × α)) (k k' : String) (v : α)
    (h : k' ≠ k) :
    (o.map (fun p => if p.1 = k then (k, v) else p)).find? (fun p => p.1 = k')
      = o.find? (fun p => p.1 = k') := by
  induction o with
  | nil => rfl
  | cons p ps ih =>
      simp only [List.map_cons]
      by_cases hp : p.1 = k
      · rw [if_pos hp,
          List.find?_cons_of_neg _ (by simp [Ne.symm h]),
          List.find?_cons_of_neg _ (by simp [hp, Ne.symm h])]
        exact ih
      · rw [if_neg hp]
        by_cases hp' : p.1 = k'
        · rw [List.find?_cons_of_pos _ (by simpa using hp'),
            List.find?_cons_of_pos _ (by simpa using hp')]
        · rw [List.find?_cons_of_neg _ (by simpa using hp'),
            List.find?_cons_of_neg _ (by simpa using hp')]
          exact ih

lemma find?_append_objSet_ne (o : List (String × α)) (k k' : String) (v : α)
    (h : k' ≠ k) :
    (o ++ [(k, v)]).find? (fun p => p.1 = k') = o.find? (fun p => p.1 = k') := by
  induction o with
  | nil => simp [List.find?, Ne.symm h]
  | cons p ps ih =>
      by_cases hp' : p.1 = k'
      · rw [List.cons_append, List.find?_cons_of_pos _ (by simpa using hp'),
          List.find?_cons_of_pos _ (by simpa using hp')]
      · rw [List.cons_append, List.find?_cons_of_neg _ (by simpa using hp'),
          List.find?_cons_of_neg _ (by simpa using hp')]
        exact ih

lemma objGet_objSet_ne (o : List (String × α)) (k k' : String) (v : α)
    (h : k' ≠ k) :
    objGet (objSet o k v) k' = objGet o k' := by
  unfold objGet objSet
  by_cases ha : o.any (fun p => p.1 = k)
  · rw [if_pos ha, find?_map_objSet_ne o k k' v h]
  · rw [if_neg ha, find?_append_objSet_ne o k k' v h]

lemma objGet_cons_self (p : String × α) (o : List (String × α)) (k : String)
    (h : p.1 = k) : objGet (p :: o) k = some p.2 := by
  unfold objGet
  rw [List.find?_cons_of_pos _ (by simpa using h)]
  rfl

lemma objGet_cons_ne (p : String × α) (o : List (String × α)) (k : String)
    (h : ¬ p.1 = k) : objGet (p :: o) k = objGet o k := by
  unfold objGet
  rw [List.find?_cons_of_neg _ (by simpa using h)]

lemma objGet_eq_none_of_not_mem (o : List (String × α)) (k : String)
    (h : k ∉ o.map Prod.fst) : objGet o k = none := by
  induction o with
  | nil => rfl
  | cons p ps ih =>
      simp only [List.map_cons, List.mem_cons, not_or] at h
      rw [objGet_cons_ne p ps k (fun hh => h.1 hh.symm)]
      exact ih h.2

lemma objGet_objMerge (a b : List (String × α))
    (hb : (b.map Prod.fst).Nodup) (k : String) :
    objGet (objMerge a b) k = (objGet b k).or (objGet a k) := by
  induction b generalizing a with
  | nil => rfl
  | cons p bs ih =>
      simp only [List.map_cons, List.nodup_cons] at hb
      have hstep : objMerge a (p :: bs) = objMerge (objSet a p.1 p.2) bs := rfl
      rw [hstep, ih _ hb.2]
      by_cases hk : p.1 = k
      · have hnone : objGet bs k = none :=
          objGet_eq_none_of_not_mem bs k (by rw [← hk]; exact hb.1)
        rw [hnone, Option.none_or, objGet_cons_self p bs k hk,
          Option.or_some, ← hk, objGet_objSet_self]
      · rw [objGet_cons_ne p bs k hk,
          objGet_objSet_ne a p.1 k p.2 (fun hh => hk hh.symm)]


lemma pushToHistory_frame (S : AppState) :
    S.pushToHistory.currentStyle = S.currentStyle ∧
    S.pushToHistory.layerVisibility = S.layerVisibility ∧
    S.pushToHistory.activeTheme = S.activeTheme ∧
    S.pushToHistory.errors = S.errors ∧
    S.pushToHistory.isLoading = S.isLoading ∧
    S.pushToHistory.maxHistorySize = S.maxHistorySize := by
  unfold AppState.pushToHistory
  dsimp only
  split_ifs <;> exact ⟨rfl, rfl, rfl, rfl, rfl, rfl⟩

lemma find?_updateFirst_ne (ls : List Layer) (lid lid' : String)
    (f : Layer → Layer) (hid : ∀ l, (f l).id = l.id) (hne : lid' ≠ lid) :
    (updateFirstLayer ls lid' f).find? (fun l => l.id = lid)
      = ls.find? (fun l => l.id = lid) := by
  induction ls with
  | nil => rfl
  | cons l ls ih =>
      unfold updateFirstLayer
      by_cases hl : l.id = lid'
      · rw [if_pos hl,
          List.find?_cons_of_neg _ (by simp [hid, hl, hne]),
          List.find?_cons_of_neg _ (by simp [hl, hne])]
      · rw [if_neg hl]
        by_cases hm : l.id = lid
        · rw [List.find?_cons_of_pos _ (by simpa using hm),
            List.find?_cons_of_pos _ (by simpa using hm)]
        · rw [List.find?_cons_of_neg _ (by simpa using hm),
            List.find?_cons_of_neg _ (by simpa using hm)]
          exact ih

lemma findLayer_mapLayers_self (d : StyleDoc) (lid : String)
    (f : Layer → Layer) (hid : ∀ l, (f l).id = l.id) :
    findLayer (d.mapLayers (fun ls => updateFirstLayer ls lid f)) lid
      = (findLayer d lid).map f := by
  unfold findLayer StyleDoc.mapLayers StyleDoc.layerList
  cases d.layers with
  | none => rfl
  | some ls =>
      simp only [Option.map_some', Option.getD_some]
      exact findLayer_updateFirst ls lid f hid

lemma findLayer_mapLayers_ne (d : StyleDoc) (lid lid' : String)
    (f : Layer → Layer) (hid : ∀ l, (f l).id = l.id) (hne : lid' ≠ lid) :
    findLayer (d.mapLayers (fun ls => updateFirstLayer ls lid' f)) lid
      = findLayer d lid := by
  unfold findLayer StyleDoc.mapLayers StyleDoc.layerList
  cases d.layers with
  | none => rfl
  | some ls =>
      simp only [Option.map_some', Option.getD_some]
      exact find?_updateFirst_ne ls lid lid' f hid hne

/-- `findLayer_mapLayers_self`/`_ne` specialised to the paint merge
performed by the theme loop and the background merge. -/
lemma findLayer_mergePaint_self (d : StyleDoc) (lid : String)
    (q : List (String × JValue)) :
    findLayer (d.mapLayers (fun ls => updateFirstLayer ls lid (fun l =>
        { l with paint := some (objMerge (l.paint.getD []) q) }))) lid
      = (findLayer d lid).map (fun l =>
          { l with paint := some (objMerge (l.paint.getD []) q) }) :=
  findLayer_mapLayers_self d lid _ (fun _ => rfl)

lemma findLayer_mergePaint_ne (d : StyleDoc) (lid lid' : String)
    (q : List (String × JValue)) (hne : lid' ≠ lid) :
    findLayer (d.mapLayers (fun ls => updateFirstLayer ls lid' (fun l =>
        { l with paint := some (objMerge (l.paint.getD []) q) }))) lid
      = findLayer d lid :=
  findLayer_mapLayers_ne d lid lid' _ (fun _ => rfl) hne

lemma foldl_themeStep_not_mem (es : List (String × ThemeLayerChange))
    (d : StyleDoc) (lid : String) (h : lid ∉ es.map Prod.fst) :
    findLayer (es.foldl themeLayerStep d) lid = findLayer d lid := by
  induction es generalizing d with
  | nil => rfl
  | cons p es ih =>
      simp only [List.map_cons, List.mem_cons, not_or] at h
      rw [List.foldl_cons, ih _ h.2]
      unfold themeLayerStep
      cases hq : p.2.paint with
      | none => rfl
      | some q =>
          exact findLayer_mapLayers_ne d lid p.1 _ (fun _ => rfl)
            (fun hh => h.1 hh.symm)

lemma foldl_themeStep_hit (es : List (String × ThemeLayerChange))
    (d : StyleDoc) (lid : String) (ch : ThemeLayerChange)
    (q : List (String × JValue))
    (hnd : (es.map Prod.fst).Nodup) (hmem : (lid, ch) ∈ es)
    (hq : ch.paint = some q) :
    findLayer (es.foldl themeLayerStep d) lid
      = (findLayer d lid).map (fun l =>
          { l with paint := some (objMerge (l.paint.getD []) q) }) := by
  induction es generalizing d with
  | nil => simp at hmem
  | cons p es ih =>
      simp only [List.map_cons, List.nodup_cons] at hnd
      rw [List.foldl_cons]
      rcases List.mem_cons.mp hmem with heq | hmem'
      · cases heq
        have hlid : lid ∉ es.map Prod.fst := hnd.1
        rw [foldl_themeStep_not_mem es _ lid hlid]
        unfold themeLayerStep
        dsimp only
        rw [hq]
        exact findLayer_mapLayers_self d lid _ (fun _ => rfl)
      · have hlidmem : lid ∈ es.map Prod.fst :=
          List.mem_map.mpr ⟨(lid, ch), hmem', rfl⟩
        have hne : p.1 ≠ lid := fun hh => hnd.1 (hh ▸ hlidmem)
        have hstep : findLayer (themeLayerStep d p) lid = findLayer d lid := by
          unfold themeLayerStep
          cases hqq : p.2.paint with
          | none => rfl
          | some w => exact findLayer_mapLayers_ne d lid p.1 _ (fun _ => rfl) hne
        rw [ih _ hnd.2 hmem', hstep]

lemma findLayer_applyThemeDoc_hit (doc : StyleDoc) (t : Theme) (lid : String)
    (ch : ThemeLayerChange) (q : List (String × JValue))
    (hnd : (t.layers.map Prod.fst).Nodup)
    (hmem : (lid, ch) ∈ t.layers) (hq : ch.paint = some q)
    (hlidbg : lid ≠ "background") :
    findLayer (applyThemeDoc doc t) lid
      = (findLayer doc lid).map (fun l =>
          { l with paint := some (objMerge (l.paint.getD []) q) }) := by
  unfold applyThemeDoc
  cases hbg : t.background with
  | none =>
      dsimp only
      exact foldl_themeStep_hit t.layers doc lid ch q hnd hmem hq
  | some bg =>
      dsimp only
      rw [findLayer_mergePaint_ne _ lid "background" bg (Ne.symm hlidbg)]
      exact foldl_themeStep_hit t.layers doc lid ch q hnd hmem hq

lemma findLayer_applyThemeDoc_background (doc : StyleDoc) (t : Theme)
    (bg : List (String × JValue)) (hbg : t.background = some bg)
    (hnb : "background" ∉ t.layers.map Prod.fst) :
    findLayer (applyThemeDoc doc t) "background"
      = (findLayer doc "background").map (fun l =>
          { l with paint := some (objMerge (l.paint.getD []) bg) }) := by
  unfold applyThemeDoc
  rw [hbg]
  dsimp only
  rw [findLayer_mergePaint_self _ "background" bg,
    foldl_themeStep_not_mem _ _ _ hnb]

lemma findLayer_applyThemeDoc_untouched (doc : StyleDoc) (t : Theme)
    (lid : String) (h1 : lid ∉ t.layers.map Prod.fst)
    (h2 : lid = "background" → t.background = none) :
    findLayer (applyThemeDoc doc t) lid = findLayer doc lid := by
  unfold applyThemeDoc
  cases hbg : t.background with
  | none =>
      dsimp only
      exact foldl_themeStep_not_mem _ _ _ h1
  | some bg =>
      dsimp only
      have hne : "background" ≠ lid := by
        intro hh
        rw [h2 hh.symm] at hbg
        cases hbg
      rw [findLayer_mergePaint_ne _ lid "background" _ hne,
        foldl_themeStep_not_mem _ _ _ h1]


lemma applyTheme_push_append (s : AppState) (n : String) (t : Theme)
    (hend : s.historyIndex + 1 = s.styleHistory.length)
    (hroom : s.styleHistory.length < s.maxHistorySize) :
    (s.applyTheme n t).2.styleHistory
      = s.styleHistory ++ [applyThemeDoc s.currentStyle t] := by
  unfold AppState.applyTheme
  dsimp only
  refine (pushToHistory_append_from
    ⟨applyThemeDoc s.currentStyle t, s.layerVisibility, s.styleHistory,
     s.historyIndex, n, false, s.errors, s.maxHistorySize⟩
    s rfl rfl rfl hend hroom).trans ?_
  rw [(pushToHistory_frame _).1]

/-- C7.  Applying a theme whose lookup fails (the `getTheme` table
returns null, so `ThemeSelector._applyTheme` throws before touching
the store) leaves the document, history, cursor, visibility map and
active theme unchanged and reports the failure on the error queue.
With a known theme: success is reported, the document becomes the
shallow-merged document, the active theme is set, exactly one combined
snapshot is appended to history (from a cursor-at-end state with
room); for every bundle entry naming a layer present in the document
the bundle's paint overrides are spread into that layer's paint, a
background override is merged into the `background` layer the same
way, layers the bundle does not name are untouched, and at the key
level the merge lets bundle values win on collision while unnamed keys
keep their previous values. -/
theorem applyTheme_contract (s : AppState) (n : String) :
    (getTheme n = none →
       (applyThemeByName s n).1 = false ∧
       (applyThemeByName s n).2.currentStyle = s.currentStyle ∧
       (applyThemeByName s n).2.styleHistory = s.styleHistory ∧
       (applyThemeByName s n).2.historyIndex = s.historyIndex ∧
       (applyThemeByName s n).2.layerVisibility = s.layerVisibility ∧
       (applyThemeByName s n).2.activeTheme = s.activeTheme ∧
       (applyThemeByName s n).2.errors
         = s.errors ++ ["Failed to apply " ++ n ++ " theme"]) ∧
    (∀ t, getTheme n = some t →
       (applyThemeByName s n).1 = true ∧
       (applyThemeByName s n).2.currentStyle = applyThemeDoc s.currentStyle t ∧
       (applyThemeByName s n).2.activeTheme = n ∧
       (s.historyIndex + 1 = s.styleHistory.length →
        s.styleHistory.length < s.maxHistorySize →
          (applyThemeByName s n).2.styleHistory
            = s.styleHistory ++ [applyThemeDoc s.currentStyle t]) ∧
       (∀ lid ch q, (t.layers.map Prod.fst).Nodup → (lid, ch) ∈ t.layers →
          ch.paint = some q → lid ≠ "background" →
          findLayer (applyThemeDoc s.currentStyle t) lid
            = (findLayer s.currentStyle lid).map (fun l =>
                { l with paint := some (objMerge (l.paint.getD []) q) })) ∧
       (∀ bg, t.background = some bg → "background" ∉ t.layers.map Prod.fst →
          findLayer (applyThemeDoc s.currentStyle t) "background"
            = (findLayer s.currentStyle "background").map (fun l =>
                { l with paint := some (objMerge (l.paint.getD []) bg) })) ∧
       (∀ lid, lid ∉ t.layers.map Prod.fst →
          (lid = "background" → t.background = none) →
          findLayer (applyThemeDoc s.currentStyle t) lid
            = findLayer s.currentStyle lid)) ∧
    (∀ (a b : List (String × JValue)), (b.map Prod.fst).Nodup → ∀ k,
       objGet (objMerge a b) k = (objGet b k).or (objGet a k)) := by
  refine ⟨?_, ?_, fun a b hb k => objGet_objMerge a b hb k⟩
  · intro h
    unfold applyThemeByName
    rw [h]
    exact ⟨rfl, rfl, rfl, rfl, rfl, rfl, rfl⟩
  · intro t ht
    unfold applyThemeByName
    rw [ht]
    refine ⟨rfl, ?_, ?_, ?_, ?_, ?_, ?_⟩
    · exact (pushToHistory_frame _).1
    · exact (pushToHistory_frame _).2.2.1
    · intro hend hroom
      exact applyTheme_push_append s n t hend hroom
    · intro lid ch q hnd hmem hq hbg
      exact findLayer_applyThemeDoc_hit s.currentStyle t lid ch q hnd hmem hq hbg
    · intro bg hbg hnb
      exact findLayer_applyThemeDoc_background s.currentStyle t bg hbg hnb
    · intro lid h1 h2
      exact findLayer_applyThemeDoc_untouched s.currentStyle t lid h1 h2

/-- Witness for C7: unknown theme "noir" (not a table entry) on a
state imported with matching layer ids; success of the real table
entries "night" and "minimal"; and the "night" merge on the state's
`co_roads` and `background` layers. -/
theorem applyTheme_contract_witness :
    (applyThemeByName exImported "noir").1 = false ∧
    (applyThemeByName exImported "noir").2.currentStyle
      = exImported.currentStyle ∧
    (applyThemeByName exImported "night").1 = true ∧
    (applyThemeByName exImported "minimal").1 = true ∧
    (applyThemeByName exImported "minimal").2.currentStyle
      = applyThemeDoc exImported.currentStyle minimalTheme ∧
    findLayer (applyThemeDoc exImported.currentStyle nightTheme) "co_roads"
      = (findLayer exImported.currentStyle "co_roads").map (fun l =>
          { l with paint := some (objMerge (l.paint.getD [])
              [("line-color", .str "#00FFFF"), ("line-width", .num 3),
               ("line-opacity", .num (Rat.mk' 9 10))]) }) ∧
    findLayer (applyThemeDoc exImported.currentStyle nightTheme) "background"
      = (findLayer exImported.currentStyle "background").map (fun l =>
          { l with paint := some (objMerge (l.paint.getD [])
              [("background-color", .str "#1a1a1a")]) }) :=
  ⟨((applyTheme_contract exImported "noir").1 (by decide)).1,
   ((applyTheme_contract exImported "noir").1 (by decide)).2.1,
   ((applyTheme_contract exImported "night").2.1 nightTheme (by decide)).1,
   ((applyTheme_contract exImported "minimal").2.1 minimalTheme (by decide)).1,
   ((applyTheme_contract exImported "minimal").2.1 minimalTheme (by decide)).2.1,
   ((applyTheme_contract exImported "night").2.1 nightTheme (by decide)).2.2.2.2.1
     "co_roads" ⟨some [("line-color", .str "#00FFFF"), ("line-width", .num 3),
       ("line-opacity", .num (Rat.mk' 9 10))]⟩
     [("line-color", .str "#00FFFF"), ("line-width", .num 3),
       ("line-opacity", .num (Rat.mk' 9 10))]
     (by decide) (by decide) (by decide) (by decide),
   ((applyTheme_contract exImported "night").2.1 nightTheme (by decide)).2.2.2.2.2.1
     [("background-color", .str "#1a1a1a")] (by decide) (by decide)⟩


lemma ids_updateFirst (ls : List Layer) (lid : String) (f : Layer → Layer)
    (hid : ∀ l, (f l).id = l.id) :
    (updateFirstLayer ls lid f).map Layer.id = ls.map Layer.id := by
  induction ls with
  | nil => rfl
  | cons l ls ih =>
      unfold updateFirstLayer
      by_cases hl : l.id = lid
      · rw [if_pos hl]
        simp [hid]
      · rw [if_neg hl]
        simp only [List.map_cons, ih]

lemma layerIds_mapLayers_updateFirst (d : StyleDoc) (lid : String)
    (f : Layer → Layer) (hid : ∀ l, (f l).id = l.id) :
    layerIds (d.mapLayers (fun ls => updateFirstLayer ls lid f)) = layerIds d := by
  unfold layerIds StyleDoc.mapLayers StyleDoc.layerList
  cases d.layers with
  | none => rfl
  | some ls =>
      simp only [Option.map_some', Option.getD_some]
      exact ids_updateFirst ls lid f hid

lemma layerIds_themeStep (d : StyleDoc) (p : String × ThemeLayerChange) :
    layerIds (themeLayerStep d p) = layerIds d := by
  unfold themeLayerStep
  cases hq : p.2.paint with
  | none => rfl
  | some q => exact layerIds_mapLayers_updateFirst d p.1 _ (fun _ => rfl)

lemma layerIds_foldl_themeStep (es : List (String × ThemeLayerChange))
    (d : StyleDoc) :
    layerIds (es.foldl themeLayerStep d) = layerIds d := by
  induction es generalizing d with
  | nil => rfl
  | cons p es ih => rw [List.foldl_cons, ih, layerIds_themeStep]

lemma layerIds_applyThemeDoc (d : StyleDoc) (t : Theme) :
    layerIds (applyThemeDoc d t) = layerIds d := by
  unfold applyThemeDoc
  cases hbg : t.background with
  | none =>
      dsimp only
      exact layerIds_foldl_themeStep t.layers d
  | some bg =>
      dsimp only
      exact (layerIds_mapLayers_updateFirst _ "background"
        (fun l => { l with paint := some (objMerge (l.paint.getD []) bg) })
        (fun _ => rfl)).trans (layerIds_foldl_themeStep t.layers d)

/-- C8 as amended.  The built-in mutations (paint update, visibility
toggle, theme application) never create or rename layers — the id
sequence of the document is preserved — and reset installs the default
document, whose ids are unique; so these operations maintain id
uniqueness by construction.  Import, however, is NOT rejected on
duplicate ids (see the counterexample): `_validateStyleObject` checks
only structural presence. -/
theorem layer_ids_preserved (s : AppState) :
    (∀ lid prop v,
       layerIds (s.updateStyle lid prop v).2.currentStyle
         = layerIds s.currentStyle) ∧
    (∀ lid vis,
       layerIds (s.toggleLayerVisibility lid vis).2.currentStyle
         = layerIds s.currentStyle) ∧
    (∀ n, layerIds (applyThemeByName s n).2.currentStyle
         = layerIds s.currentStyle) ∧
    layerIds s.resetToDefault.currentStyle = layerIds defaultStyle ∧
    (layerIds defaultStyle).Nodup := by
  refine ⟨?_, ?_, ?_, ?_, by decide⟩
  · intro lid prop v
    unfold AppState.updateStyle
    by_cases hf : (findLayer s.currentStyle lid).isNone
    · rw [if_pos hf]
    · rw [if_neg hf]
      dsimp only
      rw [(pushToHistory_frame _).1]
      exact layerIds_mapLayers_updateFirst s.currentStyle lid _ (fun _ => rfl)
  · intro lid vis
    unfold AppState.toggleLayerVisibility
    dsimp only
    exact layerIds_mapLayers_updateFirst s.currentStyle lid _ (fun _ => rfl)
  · intro n
    unfold applyThemeByName
    cases hget : getTheme n with
    | none => rfl
    | some t =>
        unfold AppState.applyTheme
        dsimp only
        rw [(pushToHistory_frame _).1]
        exact layerIds_applyThemeDoc s.currentStyle t
  · unfold AppState.resetToDefault
    rw [(pushToHistory_frame _).1]
    rfl

/-- C8 counterexample.  A document with two layers of id "a" passes
`_validateStyleObject` and is installed by `importStyleJSON` with a
success result — the duplicate-id mutation is silently applied, not
rejected. -/
theorem import_duplicate_ids_cex :
    (validateStyleObject dupDoc).1 = true ∧
    (importStyleJSON initialState dupDoc).1 = true ∧
    ¬ (layerIds (importStyleJSON initialState dupDoc).2.currentStyle).Nodup ∧
    (importStyleJSON initialState dupDoc).2.currentStyle
      ≠ initialState.currentStyle :=
  ⟨by decide, by decide, by decide, by decide⟩


lemma listGetD_set_ne (l : List α) (i j : Nat) (x d : α) (h : j ≠ i) :
    (l.set i x).getD j d = l.getD j d := by
  induction l generalizing i j with
  | nil => rfl
  | cons a as ih =>
      cases i with
      | zero =>
          cases j with
          | zero => exact absurd rfl h
          | succ jj => rfl
      | succ ii =>
          cases j with
          | zero => rfl
          | succ jj => exact ih ii jj (fun hh => h (by rw [hh]))

/-- C9 counterexample.  `updateStyle` emits `styleChanged` with
`style: this.currentStyle`: the payload carries the store's own
document address, so a subscriber writing through the payload
reference changes the store's internal document. -/
theorem notification_payload_shares_ref_cex :
    exHeapUpdate.2.2.1 = true ∧
    exHeapUpdate.2.2.2 = some exHeapUpdate.2.1.currentStyleRef ∧
    (exHeapUpdate.1.write ((exHeapUpdate.2.2.2).getD 0) default).read
        exHeapUpdate.2.1.currentStyleRef = default ∧
    exHeapUpdate.1.read exHeapUpdate.2.1.currentStyleRef ≠ default :=
  ⟨by decide, by decide, by decide, by decide⟩

/-- C9 as amended.  `getCurrentStyle()` returns a fresh address
holding an equal value, and caller mutations through it do not change
the store's document — but the isolation does not extend to
notification payloads (see the counterexample). -/
theorem getCurrentStyle_copy_isolation (h : Heap) (s : AppStateRef)
    (d : StyleDoc) (hvalid : s.currentStyleRef < h.cells.length) :
    (getCurrentStyleRef h s).2 ≠ s.currentStyleRef ∧
    (getCurrentStyleRef h s).1.read (getCurrentStyleRef h s).2
      = h.read s.currentStyleRef ∧
    ((getCurrentStyleRef h s).1.write (getCurrentStyleRef h s).2 d).read
        s.currentStyleRef = h.read s.currentStyleRef := by
  refine ⟨by intro hh; rw [show (getCurrentStyleRef h s).2 = h.cells.length from rfl] at hh; omega, ?_, ?_⟩
  · show (Heap.mk (h.cells ++ [h.read s.currentStyleRef])).read h.cells.length
      = h.read s.currentStyleRef
    unfold Heap.read
    exact listGetD_append_last h.cells _ _
  · show (Heap.mk ((h.cells ++ [h.read s.currentStyleRef]).set h.cells.length d)).read
        s.currentStyleRef = h.read s.currentStyleRef
    unfold Heap.read
    rw [listGetD_set_ne _ _ _ _ _ (by omega),
      listGetD_append_lt _ _ _ _ hvalid]

/-- Witness for the amended C9 at the freshly constructed store. -/
theorem getCurrentStyle_copy_isolation_witness :
    (getCurrentStyleRef initialHeapState.1 initialHeapState.2).2
      ≠ initialHeapState.2.currentStyleRef ∧
    (getCurrentStyleRef initialHeapState.1 initialHeapState.2).1.read
        (getCurrentStyleRef initialHeapState.1 initialHeapState.2).2
      = initialHeapState.1.read initialHeapState.2.currentStyleRef ∧
    ((getCurrentStyleRef initialHeapState.1 initialHeapState.2).1.write
        (getCurrentStyleRef initialHeapState.1 initialHeapState.2).2 default).read
        initialHeapState.2.currentStyleRef
      = initialHeapState.1.read initialHeapState.2.currentStyleRef :=
  getCurrentStyle_copy_isolation initialHeapState.1 initialHeapState.2 default
    (by decide)


end MapRemix
